import Mathlib

/-!
Verification of the Re_ADOJAS core: the ADOFAI level structure builder
(src/lib/ADOFAI/src/structure.js), the text repair pass
(src/lib/ADOFAI/src/parser.js), the path-code table
(src/lib/ADOFAI/src/pathdata, shipped as src/unnamed/part_001), the tile
mesh generator (src/lib/Geo/mesh_reserve.js) and the planet orbit
simulator (src/unnamed/part_000), shallowly embedded in Lean 4.

Number model: JavaScript numbers are embedded as rationals; a JS value
that may be `undefined` or `NaN` is embedded as `Option ℚ` (`none` plays
both roles: in every operation this code performs, `undefined` and `NaN`
behave identically - arithmetic yields `NaN`, comparisons are false,
both are falsy).  The trigonometric functions of the JS `Math` object
are opaque parameters of the embedding, gathered in `MathLib`.
-/

attribute [local semireducible] Rat.add Rat.sub Rat.mul Rat.inv Rat.ofScientific

namespace ADOJAS

/-- A JS number that may be `undefined`/`NaN` (`none`). -/
abbrev JNum := Option ℚ

/-- Lift an integer heading list into the JS-number model. -/
def hs (l : List ℚ) : List JNum := l.map some

/-- JS `x || d` on a possibly-missing number: `undefined`, `NaN` and `0`
are falsy. -/
def jsOr (x : JNum) (d : ℚ) : ℚ :=
  match x with
  | none => d
  | some v => if v = 0 then d else v

/-- Truncation toward zero, as JS division/remainder use.  Stated with
`Rat.floor` so that it evaluates inside the kernel. -/
def truncQ (x : ℚ) : ℤ :=
  if 0 ≤ x then Rat.floor x else -Rat.floor (-x)

/-- The JS `%` operator on numbers: remainder with the dividend's sign
(`x - y * trunc (x / y)`). -/
def jsRem (x y : ℚ) : ℚ := x - y * truncQ (x / y)

/-- Opaque interface to the JS `Math` object: the embedding treats the
float library functions as parameters. -/
structure MathLib where
  cos : ℚ → ℚ
  sin : ℚ → ℚ
  pi : ℚ
  pow : ℚ → ℚ → ℚ
  atan2 : ℚ → ℚ → ℚ
  sqrt : ℚ → ℚ

/-- JS `Number.prototype.toFixed(8)` (followed by `Number(...)`): round
to 8 decimal digits, ties toward +infinity per the ECMAScript spec. -/
def toFixed8 (x : ℚ) : ℚ := (Rat.floor (x * 100000000 + 1/2) : ℤ) / 100000000

/-- Equality of `Except` results is decidable (used to evaluate `load`
outcomes on concrete inputs). -/
instance {ε α : Type} [DecidableEq ε] [DecidableEq α] :
    DecidableEq (Except ε α)
  | Except.ok a, Except.ok b =>
    if h : a = b then isTrue (by rw [h]) else
      isFalse (fun hc => h (Except.ok.inj hc))
  | Except.ok _, Except.error _ => isFalse (fun hc => Except.noConfusion hc)
  | Except.error _, Except.ok _ => isFalse (fun hc => Except.noConfusion hc)
  | Except.error e, Except.error f =>
    if h : e = f then isTrue (by rw [h]) else
      isFalse (fun hc => h (Except.error.inj hc))

/- ### Data model of structure.js -/

/-- One action, floor field stripped (as stored inside a tile).  Payload
fields are optional, mirroring JS object fields that may be absent. -/
structure Action where
  eventType : String
  duration : Option ℚ
  speedType : Option String
  bpmMultiplier : Option ℚ
  beatsPerMinute : Option ℚ
  positionOffset : Option (ℚ × ℚ)
  editorOnly : Option (Bool ⊕ String)
deriving DecidableEq

/-- An action as stored flat in the level file, with its floor index. -/
structure FlatAction where
  floor : ℕ
  action : Action
deriving DecidableEq

/-- A decoration payload (opaque to the core logic). -/
structure Deco where
  decText : String
deriving DecidableEq

/-- A decoration as stored flat in the level file. -/
structure FlatDeco where
  floor : ℕ
  deco : Deco
deriving DecidableEq

/-- The record attached to a tile as `tile.position` by
`calculateTileCoordinates` (a JS array with extra named properties
`angle1`, `angle2`, `cangle`). -/
structure PosRec where
  pos : ℚ × ℚ
  angle1 : ℚ
  angle2 : ℚ
  cangle : JNum
deriving DecidableEq

/-- One tile as built by `_createArray`.  `position` is `none` until
`calculateTileCoordinates` runs.  `lastdir` embeds the source field
`_lastdir`. -/
structure Tile where
  direction : JNum
  lastdir : JNum
  actions : List Action
  angle : JNum
  addDecorations : List Deco
  twirl : ℕ
  position : Option PosRec
deriving DecidableEq

/-- The level settings object; only `bpm` is consumed by the core. -/
structure Settings where
  bpm : Option ℚ
deriving DecidableEq

/-- The parsed options object handed to `Level.load` ('object' branch). -/
structure Options where
  pathData : Option String
  angleData : Option (List JNum)
  actions : Option (List FlatAction)
  settings : Option Settings
  decorations : Option (List FlatDeco)
deriving DecidableEq

/-- The loaded level: the fields `Level.load` assigns on `this`,
including the recurrence accumulators `_angleDir` and `_twirlCount`
left over after `_createArray`. -/
structure Level where
  angleData : List JNum
  actions : List FlatAction
  settings : Settings
  decorations : List FlatDeco
  tiles : List Tile
  angleDir : JNum
  twirlCount : ℕ
deriving DecidableEq

/-- The accumulator pair threaded through `_createArray`. -/
structure BState where
  angleDir : JNum
  twirlCount : ℕ
deriving DecidableEq

/- ### pathdata (src/unnamed/part_001) -/

/-- The fixed path-code lookup table `pathDataTable`. -/
def pathDataTable : List (Char × ℚ) :=
  [('R', 0), ('p', 15), ('J', 30), ('E', 45), ('T', 60), ('o', 75),
   ('U', 90), ('q', 105), ('G', 120), ('Q', 135), ('H', 150), ('W', 165),
   ('L', 180), ('x', 195), ('N', 210), ('Z', 225), ('F', 240), ('V', 255),
   ('D', 270), ('Y', 285), ('B', 300), ('C', 315), ('M', 330), ('A', 345),
   ('5', 555), ('6', 666), ('7', 777), ('8', 888), ('!', 999)]

/-- `parseToangleData`: map each character through the table; a character
not in the table yields `undefined` (`none`). -/
def parseToangleData (s : String) : List JNum :=
  s.toList.map fun c => pathDataTable.lookup c

/- ### The angle recurrence (`_parseAngle`) -/

/-- `Level._parseAngle(agd, i, isTwirl)` with the instance field
`this._angleDir` made explicit: returns the computed relative angle and
the updated `_angleDir`.  The source's `this._angleDir == NaN` test is
always false in JS and therefore has no effect; it is omitted. -/
def parseAngle (h : List JNum) (i : ℕ) (isTwirl : ℕ) (dir0 : JNum) :
    JNum × JNum :=
  let dir := if i = 0 then some 180 else dir0
  let hi : JNum := (h[i]?).join
  if hi = some 999 then
    (some 0, if i = 0 then none else (h[i-1]?).join)
  else
    let m : JNum :=
      match dir, hi with
      | some d, some x => some (jsRem (d - x) 360)
      | _, _ => none
    let prev : JNum := if isTwirl = 0 then m else m.map (fun v => 360 - v)
    let prev := if prev = some 0 then some 360 else prev
    (prev, hi.map (fun x => x + 180))

/-- `Level._filterByFloor(arr, i)`: the actions registered at floor `i`
(floor field stripped) together with the number of Twirl actions among
them (the amount added to `this._twirlCount`). -/
def filterByFloor (arr : List FlatAction) (i : ℕ) : List Action × ℕ :=
  let actionT := arr.filter (fun a => a.floor = i)
  (actionT.map (fun a => a.action),
   (actionT.filter (fun t => t.action.eventType = "Twirl")).length)

/-- `Level._filterByFloorwithDeco(arr, i)`. -/
def filterByFloorwithDeco (arr : List FlatDeco) (i : ℕ) : List Deco :=
  (arr.filter (fun a => a.floor = i)).map (fun a => a.deco)

/-- One element of the `Array.from` body of `_createArray`: the object
literal evaluates `actions` (which bumps `_twirlCount`) before `angle`
(which reads `_twirlCount % 2` and updates `_angleDir`). -/
def tileStep (acts : List FlatAction) (decos : List FlatDeco)
    (h : List JNum) (i : ℕ) (st : BState) : Tile × BState :=
  let fa := filterByFloor acts i
  let tc := st.twirlCount + fa.2
  let pa := parseAngle h i (tc % 2) st.angleDir
  ({ direction := (h[i]?).join,
     lastdir := some (if i = 0 then 0 else ((h[i-1]?).join).getD 0),
     actions := fa.1,
     angle := pa.1,
     addDecorations := filterByFloorwithDeco decos i,
     twirl := tc,
     position := none },
   ⟨pa.2, tc⟩)

/-- The sequential construction of `_createArray`, tile `i` onward,
`k` tiles remaining. -/
def buildAux (acts : List FlatAction) (decos : List FlatDeco)
    (h : List JNum) : ℕ → ℕ → BState → List Tile
  | _, 0, _ => []
  | i, k+1, st =>
    let r := tileStep acts decos h i st
    r.1 :: buildAux acts decos h (i+1) k r.2

/-- `Level._createArray` starting from the state `load` sets up
(`this._angleDir = -180`, `this._twirlCount = 0`). -/
def createArray (h : List JNum) (acts : List FlatAction)
    (decos : List FlatDeco) : List Tile :=
  buildAux acts decos h 0 h.length ⟨some (-180), 0⟩

/-- Like `createArray` but also returning the final accumulator state
(the values the `Level` instance fields hold after `load`). -/
def createArrayWithState (h : List JNum) (acts : List FlatAction)
    (decos : List FlatDeco) : List Tile × BState :=
  (buildAux acts decos h 0 h.length ⟨some (-180), 0⟩,
   (List.range h.length).foldl
     (fun st i => (tileStep acts decos h i st).2) ⟨some (-180), 0⟩)

/-- `Level.load` on an already-parsed options object.  A promise settles
with its first `reject`, so the model returns the first error
encountered in source order; the error strings are the source's. -/
def load (o : Options) : Except String Level :=
  match (match o.pathData with
         | some p => some (parseToangleData p)
         | none => o.angleData) with
  | none => Except.error "There is not any angle datas."
  | some angleData =>
    let actions := o.actions.getD []
    match o.settings with
    | none => Except.error "There is no ADOFAI settings."
    | some settings =>
      let decorations := o.decorations.getD []
      let ts := createArrayWithState angleData actions decorations
      Except.ok { angleData := angleData, actions := actions,
                  settings := settings, decorations := decorations,
                  tiles := ts.1, angleDir := ts.2.angleDir,
                  twirlCount := ts.2.twirlCount }

/- ### Editing operations and replay (`_changeAngle`, `floorOperation`) -/

/-- `Level._parsechangedAngle(agd, i, isTwirl, lstagd)` with
`this._angleDir` made explicit.  Note that `isTwirl` receives the raw
cumulative twirl count of the tile and the untwirled branch is taken
only when it is exactly 0; the `== NaN` test is dead code as in
`_parseAngle`. -/
def parsechangedAngle (agd : JNum) (i : ℕ) (isTwirl : ℕ) (lstagd : JNum)
    (dir0 : JNum) : JNum × JNum :=
  let dir := if i = 0 then some 180 else dir0
  if agd = some 999 then
    (some 0, lstagd)
  else
    let m : JNum :=
      match dir, agd with
      | some d, some x => some (jsRem (d - x) 360)
      | _, _ => none
    let prev : JNum := if isTwirl = 0 then m else m.map (fun v => 360 - v)
    let prev := if prev = some 0 then some 360 else prev
    (prev, agd.map (fun x => x + 180))

/-- The `map` body of `_changeAngle`: the counter `y` is incremented
before each call, so the first tile is processed with index 1 and the
`i == 0` reset inside `_parsechangedAngle` never fires. -/
def changeAngleGo (y0 : ℕ) (dir : JNum) : List Tile → List Tile × JNum
  | [] => ([], dir)
  | t :: ts =>
    let pa := parsechangedAngle t.direction (y0 + 1) t.twirl t.lastdir dir
    let r := changeAngleGo (y0 + 1) pa.2 ts
    ({ t with angle := pa.1 } :: r.1, r.2)

/-- `Level._changeAngle()`: recompute every tile's angle in place,
threading the persistent `this._angleDir` (not reset beforehand). -/
def changeAngle (lvl : Level) : Level :=
  let r := changeAngleGo 0 lvl.angleDir lvl.tiles
  { lvl with tiles := r.1, angleDir := r.2 }

/-- The argument of `floorOperation`. -/
inductive FloorOp
  | append (direction : JNum)
  | insert (id : ℕ) (direction : JNum)
  | delete (id : ℕ)

/-- `Level.appendFloor`: push a fresh tile copying `_lastdir` and
`twirl` from the current last tile, then replay `_changeAngle`.
`none` models the TypeError the source throws when the tile list is
empty (it reads `this.tiles[length - 1].direction`). -/
def appendFloor (direction : JNum) (lvl : Level) : Option Level :=
  match lvl.tiles.getLast? with
  | none => none
  | some last =>
    some (changeAngle { lvl with tiles := lvl.tiles ++
      [{ direction := direction, angle := some 0, actions := [],
         addDecorations := [], lastdir := last.direction,
         twirl := last.twirl, position := none }] })

/-- `Level.floorOperation`: append/insert/delete, then replay
`_changeAngle` after the switch.  The append case delegates to
`appendFloor`, which already replays once, so an append replays the
recurrence twice in a row, as the source does.  `none` models the
TypeError thrown when an insert references a missing predecessor
tile. -/
def floorOperation (info : FloorOp) (lvl : Level) : Option Level :=
  match info with
  | FloorOp.append dir => (appendFloor dir lvl).map changeAngle
  | FloorOp.insert id dir =>
    match (if 1 ≤ id then lvl.tiles[id-1]? else none) with
    | none => none
    | some prev =>
      let newTile : Tile :=
        { direction := dir, angle := some 0, actions := [],
          addDecorations := [], lastdir := prev.direction,
          twirl := prev.twirl, position := none }
      some (changeAngle { lvl with tiles := lvl.tiles.insertIdx id newTile })
  | FloorOp.delete id =>
    some (changeAngle { lvl with tiles := lvl.tiles.eraseIdx id })

/- ### Action queries -/

/-- `Level.filterActionsByEventType(en)`: every action of every tile,
paired with its tile index, filtered by event type. -/
def filterActionsByEventType (tiles : List Tile) (en : String) :
    List (ℕ × Action) :=
  (tiles.enum.flatMap fun p => p.2.actions.map fun b => (p.1, b)).filter
    fun q => q.2.eventType = en

/-- The `{count, actions}` record returned by `getActionsByIndex`. -/
structure ActionQuery where
  count : ℕ
  actions : List Action
deriving DecidableEq

/-- `Level.getActionsByIndex(en, index)`. -/
def getActionsByIndex (tiles : List Tile) (en : String) (index : ℕ) :
    ActionQuery :=
  let hits := (filterActionsByEventType tiles en).filter
    fun item => item.1 = index
  ⟨hits.length, hits.map fun item => item.2⟩

/- ### The position pass (`calculateTileCoordinates`) -/

/-- The first loop of `calculateTileCoordinates`: resolve the midspin
sentinel to `angles[i-1] + 180` (producing `NaN` when `i = 0` or the
predecessor heading is undefined). -/
def coordFloats (angles : List JNum) (n : ℕ) : List JNum :=
  (List.range n).map fun i =>
    let value := (angles[i]?).join
    if value = some 999 then
      (if i = 0 then none else (angles[i-1]?).join).map (fun v => v + 180)
    else value

/-- The second loop of `calculateTileCoordinates`, one iteration per
`i` from the current index up to `floats.length` inclusive (the fuel
argument is the number of remaining iterations); tiles are re-emitted
with their `position` record attached, the closing iteration
(`i = floats.length`) finds no tile and emits nothing. -/
def coordGo (M : MathLib) (tiles : List Tile) (floats : List JNum) :
    ℕ → ℕ → ℚ × ℚ → List Tile
  | _, 0, _ => []
  | i, fuel+1, pos =>
    let angle1 : ℚ :=
      ((if i = floats.length then floats[i-1]? else floats[i]?).join).getD 0
    let angle2 : ℚ := if i = 0 then 0 else ((floats[i-1]?).join).getD 0
    let q := getActionsByIndex tiles "PositionTrack" i
    let pos1 :=
      if 0 < q.count then
        match q.actions with
        | p :: _ =>
          match p.positionOffset with
          | some off =>
            if p.editorOnly ≠ some (Sum.inl true) ∧
               p.editorOnly ≠ some (Sum.inr "Enabled") then
              (pos.1 + off.1, pos.2 + off.2)
            else pos
          | none => pos
        | [] => pos
      else pos
    let pos2 := (pos1.1 + M.cos (angle1 * M.pi / 180),
                 pos1.2 + M.sin (angle1 * M.pi / 180))
    match tiles[i]? with
    | some t =>
      { t with position := some ⟨(toFixed8 pos2.1, toFixed8 pos2.2),
          angle1, angle2 - 180, (floats[i]?).join⟩ } ::
        coordGo M tiles floats (i+1) fuel pos2
    | none => coordGo M tiles floats (i+1) fuel pos2

/-- `Level.calculateTileCoordinates()`. -/
def calculateTileCoordinates (M : MathLib) (lvl : Level) : Level :=
  let floats := coordFloats lvl.angleData lvl.tiles.length
  { lvl with tiles := coordGo M lvl.tiles floats 0 (floats.length + 1) (0, 0) }

/- ### parser.js: `Parser.parseError` -/

/-- The whitespace class of the JS regex `\s` (ASCII whitespace, NBSP,
Unicode space separators, line separators, BOM). -/
def isSpace (c : Char) : Bool :=
  c ∈ [' ', '\t', '\n', '\r', '\x0b', '\x0c', '\u00A0', '\u1680',
       '\u2000', '\u2001', '\u2002', '\u2003', '\u2004', '\u2005',
       '\u2006', '\u2007', '\u2008', '\u2009', '\u200A', '\u2028',
       '\u2029', '\u202F', '\u205F', '\u3000', '\uFEFF']

/-- `f.replace(/^\uFEFF/, '')`: strip one leading byte-order mark. -/
def stripBOM : List Char → List Char
  | [] => []
  | c :: r => if c = '\uFEFF' then r else c :: r

/-- `e.replaceAll('\n\\n', '\\n')`: collapse every newline directly
followed by the two-character sequence backslash-n into just that
two-character sequence (left to right, non-overlapping). -/
def collapseNL : List Char → List Char
  | '\n' :: '\\' :: 'n' :: r => '\\' :: 'n' :: collapseNL r
  | c :: r => c :: collapseNL r
  | [] => []

/-- Does `l` begin with optional whitespace followed by `}` or `]`?
(The lookahead of the regex `/,(\s*[}\]])/`; since whitespace and the
closers are disjoint, greedy matching reduces to this test.) -/
def look3 (l : List Char) : Bool :=
  match l.dropWhile (fun c => isSpace c) with
  | c :: _ => c = '\x7d' ∨ c = ']'
  | [] => false

/-- `e.replace(/,(\s*[}\]])/g, '$1')`: drop every comma that is followed
by optional whitespace and a closing brace/bracket (the whitespace and
closer are kept by the `$1` backreference). -/
def step3 : List Char → List Char
  | [] => []
  | c :: r => if c = ',' ∧ look3 r then step3 r else c :: step3 r

/-- Does `l` begin with optional whitespace followed by `target`? -/
def look4 (target : Char) (l : List Char) : Bool :=
  match l.dropWhile (fun c => isSpace c) with
  | c :: _ => c = target
  | [] => false

/-- One pass of `e.replace(/,\s*}/g, '}')` (resp. `]`): drop every comma
together with the whitespace separating it from the closer.  The Boolean
state is true while inside the whitespace run of a match being dropped
(no comma can occur there, so scanning is equivalent to the regex's
continue-after-match behaviour). -/
def step4Go (target : Char) : Bool → List Char → List Char
  | _, [] => []
  | true, c :: r =>
    if isSpace c then step4Go target true r
    else c :: step4Go target false r
  | false, c :: r =>
    if c = ',' ∧ look4 target r then step4Go target true r
    else c :: step4Go target false r

/-- `e.replace(/,\s*}/g, '}')` resp. `e.replace(/,\s*]/g, ']')`. -/
def step4 (target : Char) (l : List Char) : List Char :=
  step4Go target false l

/-- The lookahead `(?=\s*?(\{|\[))`: after optional whitespace the next
character is an opening brace/bracket. -/
def look5 (l : List Char) : Bool :=
  match l.dropWhile (fun c => isSpace c) with
  | c :: _ => c = '\x7b' ∨ c = '['
  | [] => false

/-- `e.replace(/(\{[^{}]*?)(,)(?=\s*?(\{|\[))/g, '$1')` as a left-to-right
scan.  The Boolean state records whether an opening brace is reachable
backwards through brace-free text (the regex anchor); a comma passing the
lookahead while anchored is dropped, and since the match ends at the
comma (the lookahead is zero-width), scanning resumes right after it
with the anchor consumed. -/
def step5Go : Bool → List Char → List Char
  | _, [] => []
  | anchor, c :: r =>
    if c = '\x7b' then c :: step5Go true r
    else if c = '\x7d' then c :: step5Go false r
    else if c = ',' ∧ anchor ∧ look5 r then step5Go false r
    else c :: step5Go anchor r

/-- The fifth substitution of `parseError`. -/
def step5 (l : List Char) : List Char := step5Go false l

/-- JS `String.prototype.replace` with a plain-string pattern: replace
only the first occurrence (the original text is returned when the
pattern does not occur). -/
def replaceFirst (pat repl : List Char) : List Char → List Char
  | [] => if pat.isPrefixOf ([] : List Char) then repl else []
  | c :: r =>
    if pat.isPrefixOf (c :: r) then repl ++ (c :: r).drop pat.length
    else c :: replaceFirst pat repl r

/-- `Parser.parseError(f)`: the fixed sequence of textual repairs, in
source order (BOM strip; newline-escape collapse; comma-before-closer
drops; comma-before-brace drop; missing comma before `"decorations"`;
first doubled comma collapsed). -/
def parseError (f : List Char) : List Char :=
  replaceFirst (",,".toList) (",".toList)
    (replaceFirst (" \"decorations\"".toList) (",\"decorations\"".toList)
      (step5 (step4 ']' (step4 '\x7d' (step3 (collapseNL (stripBOM f)))))))

/-- Number of adjacent-comma positions in a text (overlapping pairs all
counted). -/
def adjCommas : List Char → ℕ
  | c :: d :: r => (if c = ',' ∧ d = ',' then 1 else 0) + adjCommas (d :: r)
  | _ => 0

/-- Does the text contain two adjacent commas? -/
def hasDoubledComma : List Char → Bool
  | c :: d :: r => if c = ',' ∧ d = ',' then true else hasDoubledComma (d :: r)
  | _ => false

/-- The pipeline of `parseError` up to (excluding) the final doubled
comma substitution. -/
def preFinal (f : List Char) : List Char :=
  replaceFirst (" \"decorations\"".toList) (",\"decorations\"".toList)
    (step5 (step4 ']' (step4 '\x7d' (step3 (collapseNL (stripBOM f))))))

/- ### mesh_reserve.js: the tile mesh generator -/

/-- Rail half-width constant. -/
def TILE_WIDTH : ℚ := 0.275

/-- Rail length constant. -/
def TILE_LENGTH : ℚ := 0.5

/-- Outline thickness constant. -/
def OUTLINE : ℚ := 0.025

/-- A vertex/index/color buffer triple as returned by the generator. -/
structure Mesh where
  vertices : List ℚ
  faces : List ℕ
  colors : List ℚ
deriving DecidableEq

/-- The empty buffers every generator invocation starts from. -/
def emptyMesh : Mesh := ⟨[], [], []⟩

/-- The buffer invariant of C6: parallel vertex/color buffers, both
flattened triples, and a triangle-list face buffer. -/
def meshOk (m : Mesh) : Prop :=
  m.vertices.length = m.colors.length ∧ m.vertices.length % 3 = 0
    ∧ m.faces.length % 3 = 0

/-- The helper `fmod` of mesh_reserve.js:
`x >= 0 ? x % y : (x % y) + y`. -/
def fmod (x y : ℚ) : ℚ := if 0 ≤ x then jsRem x y else jsRem x y + y

/-- The helper `lerp` of mesh_reserve.js. -/
def lerp (a b t : ℚ) : ℚ := a + (b - a) * t

/-- `createCircle(center, radius, color, vertices, faces, colors,
resolution = 32)`: a triangle fan around a center vertex appended to
the given buffers.  `resolution = 0` stands for the non-positive case
the source resets to 32. -/
def createCircle (M : MathLib) (center : ℚ × ℚ × ℚ) (radius : ℚ)
    (col : ℚ × ℚ × ℚ) (m : Mesh) (resolution : ℕ) : Mesh :=
  let res := if resolution = 0 then 32 else resolution
  let centerIndex := m.vertices.length / 3
  { vertices := m.vertices ++ [center.1, center.2.1, center.2.2] ++
      ((List.range res).flatMap fun i =>
        [M.cos (2 * M.pi * (i : ℚ) / (res : ℚ)) * radius + center.1,
         M.sin (2 * M.pi * (i : ℚ) / (res : ℚ)) * radius + center.2.1,
         center.2.2]),
    faces := m.faces ++
      ((List.range (res - 1)).flatMap fun j =>
        [centerIndex, centerIndex + (j + 1), centerIndex + (j + 2)]) ++
      [centerIndex, centerIndex + res, centerIndex + 1],
    colors := m.colors ++ [col.1, col.2.1, col.2.2] ++
      ((List.range res).flatMap fun _ => [col.1, col.2.1, col.2.2]) }

/-- The six-vertex bridge between the chamfer fan and the two heading
rays of the small-angle branch of `createTileMesh` (the source repeats
this block verbatim for the outer and inner layers). -/
def addBridge (M : MathLib) (radius circlex circley width a0 a1 : ℚ)
    (col : ℚ × ℚ × ℚ) (m : Mesh) : Mesh :=
  let count := m.vertices.length / 3
  { vertices := m.vertices ++
      [-radius * M.sin a1 + circlex, radius * M.cos a1 + circley, 0,
       circlex, circley, 0,
       radius * M.sin a0 + circlex, -radius * M.cos a0 + circley, 0,
       width * M.sin a0, -width * M.cos a0, 0,
       0, 0, 0,
       -width * M.sin a1, width * M.cos a1, 0],
    faces := m.faces ++
      [count, count + 1, count + 5, count + 4, count + 1, count + 5,
       count + 2, count + 3, count + 4, count + 1, count + 3, count + 4],
    colors := m.colors ++
      ((List.range 6).flatMap fun _ => [col.1, col.2.1, col.2.2]) }

/-- The eight-vertex end-cap pair extruded along the two headings (the
source repeats this block verbatim four times). -/
def addCaps (length width m11 m12 m21 m22 : ℚ)
    (col : ℚ × ℚ × ℚ) (m : Mesh) : Mesh :=
  let count := m.vertices.length / 3
  { vertices := m.vertices ++
      [length * m11 + width * m12, length * m12 - width * m11, 0,
       length * m11 - width * m12, length * m12 + width * m11, 0,
       -width * m12, width * m11, 0,
       width * m12, -width * m11, 0,
       length * m21 + width * m22, length * m22 - width * m21, 0,
       length * m21 - width * m22, length * m22 + width * m21, 0,
       -width * m22, width * m21, 0,
       width * m22, -width * m21, 0],
    faces := m.faces ++
      [count, count + 1, count + 2, count + 2, count + 3, count,
       count + 4, count + 5, count + 6, count + 6, count + 7, count + 4],
    colors := m.colors ++
      ((List.range 8).flatMap fun _ => [col.1, col.2.1, col.2.2]) }

/-- The four-vertex wedge of the wide-angle branch (source block
repeated for outer and inner layers; for the outer layer the source
hardcodes `count = 0`, which coincides with `vertices.length / 3` on
the empty buffers). -/
def addWedge (M : MathLib) (circlex circley width a0 a1 : ℚ)
    (col : ℚ × ℚ × ℚ) (m : Mesh) : Mesh :=
  let count := m.vertices.length / 3
  { vertices := m.vertices ++
      [circlex, circley, 0,
       width * M.sin a0, -width * M.cos a0, 0,
       0, 0, 0,
       -width * M.sin a1, width * M.cos a1, 0],
    faces := m.faces ++
      [count, count + 1, count + 2, count + 2, count + 3, count],
    colors := m.colors ++
      ((List.range 4).flatMap fun _ => [col.1, col.2.1, col.2.2]) }

/-- `createMidSpinMesh(angle, width = TILE_WIDTH, length = TILE_WIDTH,
outline = OUTLINE)`: two nested rotated 7-vertex diamonds.  The inner
layer subtracts the global `OUTLINE` constant (not the parameter), as
the source does. -/
def createMidSpinMesh (M : MathLib) (angle width length outline : ℚ) :
    Mesh :=
  let m1 := M.cos (angle / 180 * M.pi)
  let m2 := M.sin (angle / 180 * M.pi)
  let mx := -m1 * 0.04
  let my := -m2 * 0.04
  let widthi := width + outline
  let lengthi := length + outline
  let verts1 : List ℚ :=
    [mx + lengthi * m1 + widthi * m2, my + lengthi * m2 - widthi * m1, 0,
     mx + lengthi * m1 - widthi * m2, my + lengthi * m2 + widthi * m1, 0,
     mx - widthi * m2, my + widthi * m1, 0,
     mx + widthi * m2, my - widthi * m1, 0,
     mx - widthi * m1, my - widthi * m2, 0,
     mx + widthi * m2, my - widthi * m1, 0,
     mx - widthi * m2, my + widthi * m1, 0]
  let faces1 : List ℕ := [0, 1, 2, 2, 3, 0, 4, 5, 6]
  let width2 := width - OUTLINE * 2
  let lengthi2 := lengthi - OUTLINE * 2
  let count := (verts1.length) / 3
  let verts2 : List ℚ :=
    [mx + lengthi2 * m1 + width2 * m2, my + lengthi2 * m2 - width2 * m1, 0,
     mx + lengthi2 * m1 - width2 * m2, my + lengthi2 * m2 + width2 * m1, 0,
     mx - width2 * m2, my + width2 * m1, 0,
     mx + width2 * m2, my - width2 * m1, 0,
     mx - width2 * m1, my - width2 * m2, 0,
     mx + width2 * m2, my - width2 * m1, 0,
     mx - width2 * m2, my + width2 * m1, 0]
  let faces2 : List ℕ :=
    [count, count + 1, count + 2, count + 2, count + 3, count,
     count + 4, count + 5, count + 6]
  { vertices := verts1 ++ verts2,
    faces := faces1 ++ faces2,
    colors := ((List.range 7).flatMap fun _ => [(0:ℚ), 0, 0]) ++
      ((List.range 7).flatMap fun _ => [(1:ℚ), 1, 1]) }

/-- The small-angle ("curved") branch of `createTileMesh`
(`0 < angle < 2.0943952`): chamfer circle, bridge and end caps, built
once in black and once (shrunk by twice the outline) in white. -/
def smallAngleMesh (M : MathLib)
    (angle mid a0 a1 m11 m12 m21 m22 length width outline : ℚ) : Mesh :=
  let x : ℚ :=
    if angle < 0.08726646 then 1
    else if angle < 0.5235988 then
      lerp 1 0.83 (M.pow ((angle - 0.08726646) / 0.43633235) 0.5)
    else if angle < 0.7853982 then
      lerp 0.83 0.77 (M.pow ((angle - 0.5235988) / 0.2617994) 1)
    else if angle < 1.5707964 then
      lerp 0.77 0.15 (M.pow ((angle - 0.7853982) / 0.7853982) 0.7)
    else lerp 0.15 0 (M.pow ((angle - 1.5707964) / 0.5235988) 0.5)
  let dr : ℚ × ℚ :=
    if x = 1 then (0, width)
    else ((width - lerp 0 width x) / M.sin (angle / 2), lerp 0 width x)
  let distance := dr.1
  let radius0 := dr.2
  let circlex := -distance * M.cos mid
  let circley := -distance * M.sin mid
  let width1 := width + outline
  let length1 := length + outline
  let radius1 := radius0 + outline
  let mA := createCircle M (circlex, circley, 0) radius1 (0, 0, 0) emptyMesh 32
  let mB := addBridge M radius1 circlex circley width1 a0 a1 (0, 0, 0) mA
  let mC := addCaps length1 width1 m11 m12 m21 m22 (0, 0, 0) mB
  let width2 := width1 - outline * 2
  let length2 := length1 - outline * 2
  let radius2 := radius1 - outline * 2
  let rc : ℚ × ℚ × ℚ :=
    if radius2 < 0 then
      (0, (-width2 / M.sin (angle / 2)) * M.cos mid,
          (-width2 / M.sin (angle / 2)) * M.sin mid)
    else (radius2, circlex, circley)
  let mD := createCircle M (rc.2.1, rc.2.2, 0) rc.1 (1, 1, 1) mC 32
  let mE := addBridge M rc.1 rc.2.1 rc.2.2 width2 a0 a1 (1, 1, 1) mD
  addCaps length2 width2 m11 m12 m21 m22 (1, 1, 1) mE

/-- The wide-angle branch of `createTileMesh` (`angle ≥ 2.0943952`):
wedge and end caps, black then white. -/
def wideAngleMesh (M : MathLib)
    (angle mid a0 a1 m11 m12 m21 m22 length width outline : ℚ) : Mesh :=
  let width1 := width + outline
  let length1 := length + outline
  let circlex := (-width1 / M.sin (angle / 2)) * M.cos mid
  let circley := (-width1 / M.sin (angle / 2)) * M.sin mid
  let mA := addWedge M circlex circley width1 a0 a1 (0, 0, 0) emptyMesh
  let mB := addCaps length1 width1 m11 m12 m21 m22 (0, 0, 0) mA
  let width2 := width1 - outline * 2
  let length2 := length1 - outline * 2
  let circlex2 := (-width2 / M.sin (angle / 2)) * M.cos mid
  let circley2 := (-width2 / M.sin (angle / 2)) * M.sin mid
  let mC := addWedge M circlex2 circley2 width2 a0 a1 (1, 1, 1) mB
  addCaps length2 width2 m11 m12 m21 m22 (1, 1, 1) mC

/-- `createTileMesh(startAngle, endAngle, length, width, outline)`:
normalize the swept angle via `fmod`, then dispatch to the small-angle
or wide-angle construction, or emit nothing when the swept angle is not
positive. -/
def createTileMesh (M : MathLib) (startAngle endAngle length width outline : ℚ) :
    Mesh :=
  let m11 := M.cos (startAngle / 180 * M.pi)
  let m12 := M.sin (startAngle / 180 * M.pi)
  let m21 := M.cos (endAngle / 180 * M.pi)
  let m22 := M.sin (endAngle / 180 * M.pi)
  let a0a1 :=
    if fmod (startAngle - endAngle) 360 ≥ fmod (endAngle - startAngle) 360 then
      (fmod startAngle 360 * M.pi / 180,
       fmod startAngle 360 * M.pi / 180 + fmod (endAngle - startAngle) 360 * M.pi / 180)
    else
      (fmod endAngle 360 * M.pi / 180,
       fmod endAngle 360 * M.pi / 180 + fmod (startAngle - endAngle) 360 * M.pi / 180)
  let a0 := a0a1.1
  let a1 := a0a1.2
  let angle := a1 - a0
  let mid := a0 + angle / 2
  if angle < 2.0943952 ∧ angle > 0 then
    smallAngleMesh M angle mid a0 a1 m11 m12 m21 m22 length width outline
  else if angle > 0 then
    wideAngleMesh M angle mid a0 a1 m11 m12 m21 m22 length width outline
  else emptyMesh

/-- `createTrackMesh(startAngle, endAngle, isMidspin = false,
length = TILE_LENGTH, width = TILE_WIDTH, outline = OUTLINE)`; the
midspin branch calls `createMidSpinMesh(startAngle)` with that
function's own defaults. -/
def createTrackMesh (M : MathLib) (startAngle endAngle : ℚ)
    (isMidspin : Bool) (length width outline : ℚ) : Mesh :=
  if isMidspin then createMidSpinMesh M startAngle TILE_WIDTH TILE_WIDTH OUTLINE
  else createTileMesh M startAngle endAngle length width outline

/- ### part_000: the planet orbit simulator -/

/-- One orbiting planet: its slot id, current scene position
(`mesh.position`) and orbit angle. -/
structure Planet where
  id : ℕ
  pos : ℚ × ℚ
  angle : ℚ
deriving DecidableEq

/-- The mutable simulator fields of the viewer class that the crossing
logic touches. -/
structure SimState where
  planets : List Planet
  centerPlanetIndex : ℕ
  currentTileIndex : ℕ
  isClockwise : Bool
  currentBpm : ℚ
  rotationSpeed : ℚ
deriving DecidableEq

/-- `updateRotationSpeed()`: `2π / (60000 / bpm)` radians per
millisecond. -/
def updateRotationSpeed (M : MathLib) (st : SimState) : SimState :=
  { st with rotationSpeed := 2 * M.pi / (60000 / st.currentBpm) }

/-- `processActionsAtTile(tileIndex)`: apply Pause, then SetSpeed, then
Twirl effects registered at the tile, each at most once. -/
def processActionsAtTile (M : MathLib) (lvl : Level) (tileIndex : ℕ)
    (st : SimState) : SimState :=
  let pauseQ := getActionsByIndex lvl.tiles "Pause" tileIndex
  let st1 :=
    if 0 < pauseQ.count then
      let duration := match pauseQ.actions with
        | a :: _ => jsOr a.duration 0
        | [] => 0
      let extraRotation := duration / 2 * 2 * M.pi
      { st with planets := st.planets.map fun p =>
          if p.id ≠ st.centerPlanetIndex then
            { p with angle := p.angle +
                extraRotation * (if st.isClockwise then 1 else -1) }
          else p }
    else st
  let speedQ := getActionsByIndex lvl.tiles "SetSpeed" tileIndex
  let st2 :=
    if 0 < speedQ.count then
      let st2a := match speedQ.actions with
        | a :: _ =>
          if a.speedType = some "Multiplier" then
            { st1 with currentBpm := st1.currentBpm * jsOr a.bpmMultiplier 1 }
          else if a.speedType = some "Bpm" then
            { st1 with currentBpm := jsOr a.beatsPerMinute st1.currentBpm }
          else st1
        | [] => st1
      updateRotationSpeed M st2a
    else st1
  let twirlQ := getActionsByIndex lvl.tiles "Twirl" tileIndex
  if 0 < twirlQ.count then { st2 with isClockwise := !st2.isClockwise }
  else st2

/-- `recalculatePlanetAngles()`: re-base every non-center planet's angle
as `atan2(dy, dx)` relative to the center planet's position. -/
def recalculatePlanetAngles (M : MathLib) (st : SimState) : SimState :=
  match st.planets[st.centerPlanetIndex]? with
  | none => st
  | some cp =>
    { st with planets := st.planets.enum.map fun p =>
        if p.1 = st.centerPlanetIndex then p.2
        else
          let na := M.atan2 (p.2.pos.2 - cp.pos.2) (p.2.pos.1 - cp.pos.1)
          { p.2 with angle := na } }

/-- `checkPlanetTileTransition(planet, planetIndex)`: the crossing
check against the tile at `centerPlanetIndex + 1`.  A missing tile is a
no-op; `none` models the TypeError thrown when the tile exists but has
no position record or the planet index is invalid (unreachable from the
source's call sites). -/
def checkPlanetTileTransition (M : MathLib) (lvl : Level) (st : SimState)
    (planetIndex : ℕ) : Option SimState :=
  let nextTileIndex := st.centerPlanetIndex + 1
  match lvl.tiles[nextTileIndex]? with
  | none => some st
  | some nextTile =>
    match nextTile.position with
    | none => none
    | some pr =>
      match st.planets[planetIndex]? with
      | none => none
      | some planet =>
        let distance := M.sqrt (M.pow (planet.pos.1 - pr.pos.1) 2 +
          M.pow (planet.pos.2 - pr.pos.2) 2)
        if distance < 0.5 then
          let st1 := { st with centerPlanetIndex := planetIndex,
                               currentTileIndex := nextTileIndex }
          let st2 := processActionsAtTile M lvl nextTileIndex st1
          some (recalculatePlanetAngles M st2)
        else some st

/- ### Fixtures used by concrete evaluations -/

/-- A Twirl action with no payload. -/
def twirlAction : Action := ⟨"Twirl", none, none, none, none, none, none⟩

/-- The sign flip the twirled branch of `_parseAngle` applies to a
computed relative angle (`360 - a`, except that a zero JS remainder is
forced to `360` by both branches). -/
def jflip (a : JNum) : JNum :=
  a.map fun v => if v = 360 then 360 else 360 - v

/-- A concrete interpretation of the `Math` parameters, used to evaluate
the model at specific inputs: `pow` agrees with real exponentiation at
exponent 2 (its only use in the simulator) and `sqrt` with the real
square root at 0; the trigonometric entries and `pi` are an arbitrary
interpretation (no evaluated fact depends on them). -/
def M0 : MathLib :=
  ⟨fun _ => 0, fun _ => 0, 0, fun b _ => b * b, fun _ _ => 0,
   fun x => if x ≤ 0 then 0 else 1⟩

/-- A placed tile fixture with a position record, as
`calculateTileCoordinates` leaves behind. -/
def posTile (x y : ℚ) : Tile :=
  { direction := some 0, lastdir := some 0, actions := [], angle := some 0,
    addDecorations := [], twirl := 0, position := some ⟨(x, y), 0, -180, some 0⟩ }

/-- A four-tile level with resolved positions (1,0), (2,0), (3,0) after
the origin tile, and no actions. -/
def c5Level : Level :=
  { angleData := hs [0, 0, 0, 0], actions := [], settings := ⟨none⟩,
    decorations := [],
    tiles := [posTile 0 0, posTile 1 0, posTile 2 0, posTile 3 0],
    angleDir := some 180, twirlCount := 0 }

/-- The simulator state reached after the second crossing on `c5Level`:
planet 0 is the center sitting on tile 2 and `currentTileIndex = 2`;
planet 1 has come within reach of the tile the code will examine next. -/
def c5State : SimState :=
  { planets := [⟨0, (2, 0), 0⟩, ⟨1, (1, 0), 0⟩],
    centerPlanetIndex := 0, currentTileIndex := 2,
    isClockwise := true, currentBpm := 120, rotationSpeed := 0 }

/-- A one-tile loaded level. -/
def c8Level : Level :=
  { angleData := hs [0], actions := [], settings := ⟨none⟩,
    decorations := [], tiles := createArray (hs [0]) [] [],
    angleDir := some 180, twirlCount := 0 }

/- ### Basic arithmetic lemmas -/

theorem truncQ_eq (x : ℚ) : truncQ x = if 0 ≤ x then ⌊x⌋ else ⌈x⌉ := by
  have hf : ∀ y : ℚ, Rat.floor y = ⌊y⌋ := fun y =>
    (Rat.floor_def' y).trans Rat.floor_def.symm
  have hc : ⌈x⌉ = -⌊-x⌋ := by
    have := Int.ceil_neg (α := ℚ) (a := -x)
    rwa [neg_neg] at this
  unfold truncQ
  rcases le_or_lt 0 x with h | h
  · simp [h, hf]
  · simp [not_le.mpr h, hf, hc]

theorem jsRem_lt (x : ℚ) : jsRem x 360 < 360 := by
  unfold jsRem
  rw [truncQ_eq]
  have hx : 360 * (x / 360) = x := by
    rw [mul_comm]
    exact div_mul_cancel₀ x (by norm_num)
  rcases le_or_lt 0 (x / 360) with h | h
  · rw [if_pos h]
    have h2 : x / 360 < ⌊x / 360⌋ + 1 := Int.lt_floor_add_one _
    nlinarith [h2, hx]
  · rw [if_neg (not_le.mpr h)]
    have h1 : x / 360 ≤ (⌈x / 360⌉ : ℚ) := Int.le_ceil _
    nlinarith [h1, hx]

theorem neg_lt_jsRem (x : ℚ) : -360 < jsRem x 360 := by
  unfold jsRem
  rw [truncQ_eq]
  have hx : 360 * (x / 360) = x := by
    rw [mul_comm]
    exact div_mul_cancel₀ x (by norm_num)
  rcases le_or_lt 0 (x / 360) with h | h
  · rw [if_pos h]
    have h1 : (⌊x / 360⌋ : ℚ) ≤ x / 360 := Int.floor_le _
    nlinarith [h1, hx]
  · rw [if_neg (not_le.mpr h)]
    have h1 : (⌈x / 360⌉ : ℚ) < x / 360 + 1 := Int.ceil_lt_add_one _
    nlinarith [h1, hx]

/- ### Claim theorems -/

/-- C1: the relativeAngle invariant fails on the code.  For the heading
list `[270]` with no actions, `_parseAngle` computes tile 0 (a
non-midspin tile, direction 270) with `relativeAngle = -90`, because
the JS `%` operator keeps the dividend's sign; `-90` is not in
`(0, 360]`, so the claimed invariant does not hold of the code as
written (the source's own forcing of a zero result to 360 shows the
positive-arc range was the intent). -/
theorem c1_parse_angle_not_positive :
    (createArray (hs [270]) [] []).map (fun t => (t.direction, t.angle))
        = [(some 270, some (-90))]
    ∧ ¬(0 < (-90 : ℚ) ∧ (-90 : ℚ) ≤ 360) := by
  exact ⟨by decide, by decide⟩

/-- C2 (counterexample): floor 2's relativeAngle is NOT computed with
the pre-Twirl parity.  On headings `[0, 0, 90]`, a Twirl at floor 2
makes tile 2's angle `270` (post-Twirl parity), while the build without
the Twirl - i.e. the value the pre-Twirl parity would give - yields
`90`. -/
theorem c2_floor2_post_parity_counterexample :
    ((createArray (hs [0, 0, 90]) [⟨2, twirlAction⟩] [])[2]?).map Tile.angle
        = some (some 270)
    ∧ ((createArray (hs [0, 0, 90]) [] [])[2]?).map Tile.angle
        = some (some 90)
    ∧ (some (some (270 : ℚ)) : Option JNum) ≠ some (some 90) := by
  exact ⟨by decide, by decide, by decide⟩

/-- C3: replaying after a floor edit does not reproduce a rebuild from
scratch.  Loading `[90, 90]` and appending a floor with direction 90
replays `_changeAngle` twice (once inside `appendFloor`, once after
the `floorOperation` switch), each pass with the stale
`_angleDir = 270` and a counter that starts at 1, so the `i == 0`
reset to 180 never runs: both passes leave the angles at
`[180, 180, 180]`, while rebuilding from scratch on `[90, 90, 90]`
gives `[90, 180, 180]`. -/
theorem c3_replay_differs_from_rebuild :
    ((load ⟨none, some (hs [90, 90]), none, some ⟨none⟩, none⟩).map
        fun l => (floorOperation (FloorOp.append (some 90)) l).map
          fun l2 => l2.tiles.map Tile.angle)
      = Except.ok (some [some 180, some 180, some 180])
    ∧ ((load ⟨none, some (hs [90, 90, 90]), none, some ⟨none⟩, none⟩).map
        fun l => l.tiles.map Tile.angle)
      = Except.ok [some 90, some 180, some 180] := by
  exact ⟨by decide, by decide⟩

/-- C4: on the heading sequence `[0, 999, 0]` with no actions, tile 1
has `relativeAngle = 0` and keeps the midspin sentinel 999 as its
stored direction; the recurrence inherits the predecessor's raw heading
0 as the new reference heading (`_angleDir`); and the renderer's
midspin flag (`direction == 999`) routes such a tile to
`createMidSpinMesh`, not to the rail-segment generator. -/
theorem c4_midspin_scenario :
    ((createArray (hs [0, 999, 0]) [] [])[1]?).map
        (fun t => (t.angle, t.direction)) = some (some 0, some 999)
    ∧ (parseAngle (hs [0, 999, 0]) 1 0 (some 180)).2 = some 0
    ∧ ∀ (M : MathLib) (s e len w o : ℚ),
        createTrackMesh M s e true len w o
          = createMidSpinMesh M s TILE_WIDTH TILE_WIDTH OUTLINE := by
  refine ⟨by decide, by decide, fun M s e len w o => rfl⟩

/-- C5: at the crossing from the state reached after two crossings
(planet 0 center, `currentTileIndex = 2`), the code examines the tile
at `centerPlanetIndex + 1 = 1` - not `currentTileIndex + 1 = 3` - and
sets `currentTileIndex` to 1: the tile index does not advance by one as
the claim states (it moves backwards), because the planet slot index is
used where a tile index is required. -/
theorem c5_crossing_bookkeeping :
    c5State.currentTileIndex = 2
    ∧ (checkPlanetTileTransition M0 c5Level c5State 1).map
        SimState.currentTileIndex = some 1
    ∧ (checkPlanetTileTransition M0 c5Level c5State 1).map
        SimState.centerPlanetIndex = some 1
    ∧ (checkPlanetTileTransition M0 c5Level c5State 1).map
        SimState.currentTileIndex ≠ some (c5State.currentTileIndex + 1) := by
  exact ⟨rfl, by decide, by decide, by decide⟩

/-- C8 (counterexample): the stored `position.angle2` of tile 0 is
`-180`, not 0: the code computes `angle2 - 180` where `angle2 = 0` for
`i = 0`. -/
theorem c8_angle2_counterexample :
    (((calculateTileCoordinates M0 c8Level).tiles[0]?).bind
        Tile.position).map PosRec.angle2 = some (-180)
    ∧ ((-180 : ℚ)) ≠ 0 := by
  exact ⟨by decide, by decide⟩

/-- C9 (counterexample): `parseError` does not collapse every doubled
comma.  On the input `a,,b,,c` - which no earlier substitution of the
repair sequence touches - the final `.replace(",,", ",")` only rewrites
the first occurrence, leaving `a,b,,c`, which still contains two
adjacent commas. -/
theorem c9_doubled_comma_counterexample :
    parseError ("a,,b,,c".toList) = "a,b,,c".toList
    ∧ hasDoubledComma (parseError ("a,,b,,c".toList)) = true := by
  exact ⟨by decide, by decide⟩

/-- C7: `load` rejects exactly when the options lack both `pathData`
and `angleData`, or lack `settings` (the promise settles with the first
reject; later statements cannot undo it); on success a missing
`actions` key yields an empty actions list and a missing `decorations`
key an empty decorations list. -/
theorem c7_load_contract (o : Options) :
    ((∃ e, load o = Except.error e) ↔
      ((o.pathData = none ∧ o.angleData = none) ∨ o.settings = none))
    ∧ (o.actions = none →
        (load o).map Level.actions = (load o).map fun _ => [])
    ∧ (o.decorations = none →
        (load o).map Level.decorations = (load o).map fun _ => []) := by
  obtain ⟨pd, ad, ac, st, dc⟩ := o
  refine ⟨?_, ?_, ?_⟩
  · cases pd <;> cases ad <;> cases st <;> simp [load]
  · rintro rfl
    cases pd <;> cases ad <;> cases st <;> simp [load, Except.map]
  · rintro rfl
    cases pd <;> cases ad <;> cases st <;> simp [load, Except.map]

/-- C7 witness: a concrete successful load with absent `actions` and
`decorations` keys, whose loaded lists are empty. -/
theorem c7_load_contract_witness :
    ((load ⟨none, some (hs [0]), none, some ⟨none⟩, none⟩).map Level.actions
      = (load ⟨none, some (hs [0]), none, some ⟨none⟩, none⟩).map fun _ => [])
    ∧ ((load ⟨none, some (hs [0]), none, some ⟨none⟩, none⟩).map Level.decorations
      = (load ⟨none, some (hs [0]), none, some ⟨none⟩, none⟩).map fun _ => []) :=
  ⟨(c7_load_contract ⟨none, some (hs [0]), none, some ⟨none⟩, none⟩).2.1 rfl,
   (c7_load_contract ⟨none, some (hs [0]), none, some ⟨none⟩, none⟩).2.2 rfl⟩

/-- C8 (amended): for every interpretation of the Math library and
every level with at least one tile, the position pass records
`position.angle2 = -180` for tile 0 (the source stores `angle2 - 180`
and defines `angle2 = 0` at `i = 0`), not 0 as claimed. -/
theorem c8_angle2_amended (M : MathLib) (lvl : Level) (hne : lvl.tiles ≠ []) :
    (((calculateTileCoordinates M lvl).tiles[0]?).bind Tile.position).map
      PosRec.angle2 = some (-180) := by
  obtain ⟨t, ts, hts⟩ := List.exists_cons_of_ne_nil hne
  simp only [calculateTileCoordinates, hts]
  have hlen : (coordFloats lvl.angleData (t :: ts).length).length
      = ts.length + 1 := by
    simp [coordFloats]
  rw [hlen]
  simp [coordGo]

/-- C8 witness: the amended fact evaluated on a concrete one-tile
level. -/
theorem c8_angle2_amended_witness :
    c8Level.tiles ≠ []
    ∧ (((calculateTileCoordinates M0 c8Level).tiles[0]?).bind
        Tile.position).map PosRec.angle2 = some (-180) :=
  ⟨by decide, c8_angle2_amended M0 c8Level (by decide)⟩

theorem adjCommas_zero : ∀ t : List Char, adjCommas t = 0 →
    hasDoubledComma t = false := by
  intro t
  induction t with
  | nil => intro _; rfl
  | cons c r ih =>
    cases r with
    | nil => intro _; rfl
    | cons d r2 =>
      intro h
      rw [adjCommas] at h
      rw [hasDoubledComma]
      by_cases hcd : c = ',' ∧ d = ','
      · rw [if_pos hcd] at h; omega
      · rw [if_neg hcd] at h
        rw [if_neg hcd]
        exact ih (by omega)

theorem rf_comma : ∀ t : List Char, adjCommas t ≤ 1 →
    hasDoubledComma (replaceFirst [',', ','] [','] t) = false := by
  intro t
  induction t with
  | nil => intro _; rfl
  | cons c r ih =>
    intro hle
    by_cases hc : c = ','
    · subst hc
      cases r with
      | nil => decide
      | cons d r2 =>
        by_cases hd : d = ','
        · subst hd
          have hpre : ([',', ','].isPrefixOf (',' :: ',' :: r2)) = true := by
            simp [List.isPrefixOf]
          rw [replaceFirst, if_pos hpre]
          have h0 : adjCommas (',' :: r2) = 0 := by
            rw [adjCommas] at hle
            simp at hle
            omega
          simpa using adjCommas_zero (',' :: r2) h0
        · have hpre : ([',', ','].isPrefixOf (',' :: d :: r2)) = false := by
            simp [List.isPrefixOf]
            exact fun h => absurd h.symm hd
          rw [replaceFirst, if_neg (by simp [hpre])]
          have hpre2 : ([',', ','].isPrefixOf (d :: r2)) = false := by
            simp [List.isPrefixOf]
            exact fun h => absurd h.symm hd
          rw [replaceFirst, if_neg (by simp [hpre2])]
          rw [hasDoubledComma, if_neg (by simp [hd])]
          have hle2 : adjCommas (d :: r2) ≤ 1 := by
            rw [adjCommas] at hle
            omega
          have hin := ih hle2
          rw [replaceFirst, if_neg (by simp [hpre2])] at hin
          exact hin
    · by_cases hpre : ([',', ','].isPrefixOf (c :: r)) = true
      · exfalso
        cases r with
        | nil => simp [List.isPrefixOf] at hpre
        | cons d r2 =>
          simp [List.isPrefixOf] at hpre
          exact hc hpre.1.symm
      · rw [replaceFirst, if_neg hpre]
        have hle2 : adjCommas r ≤ 1 := by
          cases r with
          | nil => simp [adjCommas]
          | cons d r2 =>
            rw [adjCommas, if_neg (by intro hh; exact hc hh.1)] at hle
            omega
        cases hr : replaceFirst [',', ','] [','] r with
        | nil => rfl
        | cons e r3 =>
          rw [hasDoubledComma]
          by_cases hce : c = ',' ∧ e = ','
          · exact absurd hce.1 hc
          · rw [if_neg hce]
            have hin := ih hle2
            rw [hr] at hin
            exact hin

/-- C9 (amended): the final substitution of `parseError` rewrites only
the FIRST doubled comma, so freedom from adjacent commas is only
guaranteed when the text produced by the preceding repairs contains at
most one adjacent-comma pair; inputs with two or more such pairs can
leave doubled commas in the output (see the counterexample). -/
theorem c9_doubled_comma_amended (f : List Char)
    (h : adjCommas (preFinal f) ≤ 1) :
    hasDoubledComma (parseError f) = false := by
  have he : parseError f
      = replaceFirst [',', ','] [','] (preFinal f) := rfl
  rw [he]
  exact rf_comma (preFinal f) h

/-- C9 witness: an input whose repaired prefix has a single doubled
comma; the output has none. -/
theorem c9_doubled_comma_amended_witness :
    adjCommas (preFinal ("ab,,c".toList)) ≤ 1
    ∧ hasDoubledComma (parseError ("ab,,c".toList)) = false :=
  ⟨by decide, c9_doubled_comma_amended ("ab,,c".toList) (by decide)⟩

/-- The twirled branch of `_parseAngle` computes the flip of the
untwirled value (midspin tiles excepted) and updates `_angleDir`
identically. -/
theorem parseAngle_flip (h : List JNum) (i : ℕ) (d : JNum) :
    ((parseAngle h i 1 d).1 = (if (h[i]?).join = some 999 then some 0
      else jflip (parseAngle h i 0 d).1))
    ∧ (parseAngle h i 1 d).2 = (parseAngle h i 0 d).2 := by
  simp only [parseAngle]
  by_cases h9 : (h[i]?).join = some 999
  · rw [if_pos h9, if_pos h9, if_pos h9]
    exact ⟨rfl, rfl⟩
  · rw [if_neg h9, if_neg h9, if_neg h9]
    refine ⟨?_, rfl⟩
    rcases hD : (if i = 0 then some (180:ℚ) else d) with _ | dv <;>
      rcases hH : (h[i]?).join with _ | hv <;>
      simp only [hD, hH, jflip, Option.map_none', Option.map_some']
    · decide
    · decide
    · decide
    · have hlt := jsRem_lt (dv - hv)
      by_cases hr : jsRem (dv - hv) 360 = 0
      · rw [hr]
        norm_num
      · have hne360 : jsRem (dv - hv) 360 ≠ 360 := by
          intro hh
          rw [hh] at hlt
          exact lt_irrefl _ hlt
        have h360 : (360 : ℚ) - jsRem (dv - hv) 360 ≠ 0 := by
          intro hh
          exact hne360 (by linarith)
        rw [if_neg (by simpa using h360)]
        simp [hr, hne360]

theorem filterByFloor_nil (i : ℕ) : filterByFloor [] i = ([], 0) := rfl

theorem filterByFloor_twirl2 (i : ℕ) :
    filterByFloor [⟨2, twirlAction⟩] i
      = (if i = 2 then [twirlAction] else [], if i = 2 then 1 else 0) := by
  by_cases h2 : i = 2
  · subst h2; decide
  · have h2s : ¬(2 = i) := fun hh => h2 hh.symm
    simp [filterByFloor, h2, h2s]

set_option maxHeartbeats 1000000 in
/-- Pairwise comparison of the `_createArray` recurrence with and
without a single Twirl action at floor 2, from an arbitrary midpoint:
the reference heading threads identically, the twirl count of tile
`i + j` is 1 exactly from floor 2 on, and angles flip from floor 2
on. -/
theorem c2_aux (decos : List FlatDeco) (h : List JNum) :
    ∀ (k i : ℕ) (d : JNum) (j : ℕ),
    (((buildAux [⟨2, twirlAction⟩] decos h i k ⟨d, if 2 < i then 1 else 0⟩)[j]?).map Tile.twirl
        = ((buildAux [] decos h i k ⟨d, 0⟩)[j]?).map fun _ => if i + j < 2 then 0 else 1)
    ∧ (((buildAux [⟨2, twirlAction⟩] decos h i k ⟨d, if 2 < i then 1 else 0⟩)[j]?).map Tile.angle
        = ((buildAux [] decos h i k ⟨d, 0⟩)[j]?).map fun t =>
            if i + j < 2 then t.angle
            else if t.direction = some 999 then some 0 else jflip t.angle) := by
  intro k
  induction k with
  | zero =>
    intro i d j
    simp [buildAux]
  | succ k ih =>
    intro i d j
    have htc : ((if 2 < i then 1 else 0) + (if i = 2 then 1 else 0))
        = if i < 2 then 0 else 1 := by
      split_ifs <;> omega
    simp only [buildAux, tileStep, filterByFloor_twirl2, filterByFloor_nil]
    cases j with
    | zero =>
      simp only [List.getElem?_cons_zero, Option.map_some']
      rw [htc]
      constructor
      · simp
      · by_cases hi : i < 2
        · rw [if_pos hi, if_pos (show i + 0 < 2 by omega)]
        · rw [if_neg hi, if_neg (show ¬(i + 0 < 2) by omega)]
          norm_num
          exact (parseAngle_flip h i d).1
    | succ j2 =>
      simp only [List.getElem?_cons_succ]
      have htc2 : ((if 2 < i then 1 else 0) + if i = 2 then 1 else 0)
          = if 2 < i + 1 then 1 else 0 := by split_ifs <;> omega
      have hdir : (parseAngle h i
            (((if 2 < i then 1 else 0) + if i = 2 then 1 else 0) % 2) d).2
          = (parseAngle h i ((0 + 0) % 2) d).2 := by
        rw [htc]
        by_cases hi : i < 2
        · rw [if_pos hi]
        · rw [if_neg hi]
          norm_num
          exact (parseAngle_flip h i d).2
      rw [hdir, htc2]
      have harith : i + (j2 + 1) = (i + 1) + j2 := by omega
      rw [harith]
      have hzz : (0 + 0 : ℕ) = 0 := rfl
      rw [hzz]
      exact ih (i + 1) (parseAngle h i (0 % 2) d).2 j2

/-- C2 (amended): a Twirl action registered at floor 2 flips the parity
used for relativeAngle computation at floor 2 itself and at all later
floors - not only from floor 3 on - and the parity toggles exactly
once: compared with the same build without the Twirl, tiles 0 and 1 are
unchanged, and every tile from index 2 on carries twirl parity 1 and
the flipped angle (midspin tiles keep angle 0). -/
theorem c2_twirl_parity_amended (h : List JNum) (decos : List FlatDeco)
    (j : ℕ) :
    (((createArray h [⟨2, twirlAction⟩] decos)[j]?).map Tile.twirl
        = ((createArray h [] decos)[j]?).map fun _ => if j < 2 then 0 else 1)
    ∧ (((createArray h [⟨2, twirlAction⟩] decos)[j]?).map Tile.angle
        = ((createArray h [] decos)[j]?).map fun t =>
            if j < 2 then t.angle
            else if t.direction = some 999 then some 0 else jflip t.angle) := by
  have base := c2_aux decos h h.length 0 (some (-180)) j
  simpa [createArray] using base

/-- Truncation fixes integers. -/
theorem truncQ_intCast (k : ℤ) : truncQ (k : ℚ) = k := by
  rw [truncQ_eq]
  split_ifs <;> simp

/-- A multiple of 360 leaves JS remainder 0. -/
theorem jsRem_mul360 (k : ℤ) : jsRem (360 * (k : ℚ)) 360 = 0 := by
  unfold jsRem
  have hq : (360 * (k : ℚ)) / 360 = (k : ℚ) :=
    mul_div_cancel_left₀ _ (by norm_num)
  rw [hq, truncQ_intCast]
  ring

/-- `fmod` of a multiple of 360: 0 for a nonnegative argument, 360 for
a negative one (the source adds `y` back to a negative remainder, and
the remainder of a negative multiple is `-0`). -/
theorem fmod_mul360 (k : ℤ) :
    fmod (360 * (k : ℚ)) 360 = if 0 ≤ 360 * (k : ℚ) then 0 else 360 := by
  unfold fmod
  rw [jsRem_mul360]
  split_ifs <;> norm_num

/-- When the branch-selected circular difference is 0, both geometry
branches of `createTileMesh` are skipped and the buffers stay empty. -/
theorem createTileMesh_zero_sweep (M : MathLib) (s e len w o : ℚ)
    (h1 : fmod (s - e) 360 ≥ fmod (e - s) 360 → fmod (e - s) 360 = 0)
    (h2 : ¬(fmod (s - e) 360 ≥ fmod (e - s) 360) → fmod (s - e) 360 = 0) :
    createTileMesh M s e len w o = emptyMesh := by
  simp only [createTileMesh]
  by_cases hge : fmod (s - e) 360 ≥ fmod (e - s) 360
  · rw [if_pos hge, h1 hge]
    have hz : fmod s 360 * M.pi / 180 + 0 * M.pi / 180
        - fmod s 360 * M.pi / 180 = 0 := by ring
    rw [hz]
    norm_num
  · rw [if_neg hge, h2 hge]
    have hz : fmod e 360 * M.pi / 180 + 0 * M.pi / 180
        - fmod e 360 * M.pi / 180 = 0 := by ring
    rw [hz]
    norm_num

/-- C10: a non-midspin `createTrackMesh` call whose incoming and
outgoing headings are congruent modulo 360 (swept angle 0, e.g. an
exact back-track tile) returns empty vertex, face and color buffers -
no geometry is emitted, for every interpretation of the Math library
and every length/width/outline. -/
theorem c10_zero_sweep_empty_mesh (M : MathLib) (s e len w o : ℚ) (k : ℤ)
    (hk : s - e = 360 * (k : ℚ)) :
    createTrackMesh M s e false len w o = emptyMesh := by
  have hes : e - s = 360 * ((-k : ℤ) : ℚ) := by push_cast; linarith
  have hF1 : fmod (s - e) 360 = if 0 ≤ s - e then 0 else 360 := by
    rw [hk]; exact fmod_mul360 k
  have hF2 : fmod (e - s) 360 = if 0 ≤ e - s then 0 else 360 := by
    rw [hes]; exact fmod_mul360 (-k)
  have h1 : fmod (s - e) 360 ≥ fmod (e - s) 360 → fmod (e - s) 360 = 0 := by
    intro hge
    by_cases hse : 0 ≤ e - s
    · rw [hF2, if_pos hse]
    · exfalso
      rw [hF2, if_neg hse] at hge
      have hse2 : 0 ≤ s - e := by linarith [not_le.mp hse]
      rw [hF1, if_pos hse2] at hge
      linarith
  have h2 : ¬(fmod (s - e) 360 ≥ fmod (e - s) 360) → fmod (s - e) 360 = 0 := by
    intro hnge
    by_cases hse : 0 ≤ s - e
    · rw [hF1, if_pos hse]
    · exfalso
      apply hnge
      rw [hF1, if_neg hse, hF2, if_pos (by linarith [not_le.mp hse])]
      norm_num
  have hmesh := createTileMesh_zero_sweep M s e len w o h1 h2
  simpa [createTrackMesh] using hmesh

/-- C10 witness: headings 0 and 0 (congruent mod 360, k = 0) produce
the empty mesh under a concrete Math interpretation. -/
theorem c10_zero_sweep_empty_mesh_witness :
    ((0:ℚ) - 0 = 360 * ((0:ℤ) : ℚ))
    ∧ createTrackMesh M0 0 0 false TILE_LENGTH TILE_WIDTH OUTLINE = emptyMesh :=
  ⟨by norm_num,
   c10_zero_sweep_empty_mesh M0 0 0 TILE_LENGTH TILE_WIDTH OUTLINE 0 (by norm_num)⟩

/-- Flattening constant-size-3 chunks over a range. -/
theorem length_flatMap_triple {α : Type} (n : ℕ) (f : ℕ → List α)
    (hf : ∀ i, (f i).length = 3) :
    ((List.range n).flatMap f).length = 3 * n := by
  induction n with
  | zero => simp
  | succ n ih =>
    rw [List.range_succ, List.flatMap_append]
    simp only [List.length_append, ih, List.flatMap_cons, List.flatMap_nil,
      List.append_nil, hf]
    ring

theorem length_flatMap_cons3 {α : Type} (n : ℕ) (a b c : ℕ → α) :
    ((List.range n).flatMap fun i => [a i, b i, c i]).length = 3 * n :=
  length_flatMap_triple n _ (fun _ => rfl)


theorem meshOk_empty : meshOk emptyMesh :=
  ⟨rfl, rfl, rfl⟩

theorem meshOk_createCircle (M : MathLib) (c : ℚ × ℚ × ℚ) (r : ℚ)
    (col : ℚ × ℚ × ℚ) (m : Mesh) (res : ℕ) (hm : meshOk m) :
    meshOk (createCircle M c r col m res) := by
  obtain ⟨h1, h2, h3⟩ := hm
  unfold createCircle
  refine ⟨?_, ?_, ?_⟩ <;>
    simp only [List.length_append, length_flatMap_cons3, List.length_cons,
      List.length_nil, h1] <;> omega

theorem meshOk_addBridge (M : MathLib) (r cx cy w a0 a1 : ℚ)
    (col : ℚ × ℚ × ℚ) (m : Mesh) (hm : meshOk m) :
    meshOk (addBridge M r cx cy w a0 a1 col m) := by
  obtain ⟨h1, h2, h3⟩ := hm
  unfold addBridge
  refine ⟨?_, ?_, ?_⟩ <;>
    simp only [List.length_append, length_flatMap_cons3, List.length_cons,
      List.length_nil, h1] <;> omega

theorem meshOk_addCaps (len w m11 m12 m21 m22 : ℚ)
    (col : ℚ × ℚ × ℚ) (m : Mesh) (hm : meshOk m) :
    meshOk (addCaps len w m11 m12 m21 m22 col m) := by
  obtain ⟨h1, h2, h3⟩ := hm
  unfold addCaps
  refine ⟨?_, ?_, ?_⟩ <;>
    simp only [List.length_append, length_flatMap_cons3, List.length_cons,
      List.length_nil, h1] <;> omega

theorem meshOk_addWedge (M : MathLib) (cx cy w a0 a1 : ℚ)
    (col : ℚ × ℚ × ℚ) (m : Mesh) (hm : meshOk m) :
    meshOk (addWedge M cx cy w a0 a1 col m) := by
  obtain ⟨h1, h2, h3⟩ := hm
  unfold addWedge
  refine ⟨?_, ?_, ?_⟩ <;>
    simp only [List.length_append, length_flatMap_cons3, List.length_cons,
      List.length_nil, h1] <;> omega

theorem meshOk_midspin (M : MathLib) (a w l o : ℚ) :
    meshOk (createMidSpinMesh M a w l o) := by
  unfold createMidSpinMesh
  refine ⟨?_, ?_, ?_⟩ <;>
    simp only [List.length_append, length_flatMap_cons3, List.length_cons,
      List.length_nil]

theorem meshOk_smallAngleMesh (M : MathLib)
    (angle mid a0 a1 m11 m12 m21 m22 len w o : ℚ) :
    meshOk (smallAngleMesh M angle mid a0 a1 m11 m12 m21 m22 len w o) := by
  unfold smallAngleMesh
  apply meshOk_addCaps
  apply meshOk_addBridge
  apply meshOk_createCircle
  apply meshOk_addCaps
  apply meshOk_addBridge
  apply meshOk_createCircle
  exact meshOk_empty

theorem meshOk_wideAngleMesh (M : MathLib)
    (angle mid a0 a1 m11 m12 m21 m22 len w o : ℚ) :
    meshOk (wideAngleMesh M angle mid a0 a1 m11 m12 m21 m22 len w o) := by
  unfold wideAngleMesh
  apply meshOk_addCaps
  apply meshOk_addWedge
  apply meshOk_addCaps
  apply meshOk_addWedge
  exact meshOk_empty

theorem meshOk_createTileMesh (M : MathLib) (s e len w o : ℚ) :
    meshOk (createTileMesh M s e len w o) := by
  unfold createTileMesh
  dsimp only
  split <;> split <;>
    first
      | apply meshOk_smallAngleMesh
      | (split <;>
          first
            | apply meshOk_wideAngleMesh
            | exact meshOk_empty)

/-- C6: for every interpretation of the Math library, every pair of
headings, every midspin flag and every length/width/outline, the mesh
returned by `createTrackMesh` has `vertices` and `colors` of equal
length, both multiples of 3, and a `faces` list whose length is a
multiple of 3. -/
theorem c6_mesh_buffer_invariants (M : MathLib) (s e : ℚ) (b : Bool)
    (len w o : ℚ) :
    (createTrackMesh M s e b len w o).vertices.length
        = (createTrackMesh M s e b len w o).colors.length
    ∧ (createTrackMesh M s e b len w o).vertices.length % 3 = 0
    ∧ (createTrackMesh M s e b len w o).faces.length % 3 = 0 := by
  cases b with
  | true => exact meshOk_midspin M s TILE_WIDTH TILE_WIDTH OUTLINE
  | false => exact meshOk_createTileMesh M s e len w o

end ADOJAS
